import Mathlib

/-!
Shallow embedding of the credential-issuance core of the `go-persona`
identity provider, together with theorems settling the claims about it.

Scope of the embedding (translated from the Go source):
  * the base64url streaming encoder (`encoding/base64.NewEncoder` with
    `base64.URLEncoding`, output-equivalent model: complete 3-byte groups
    are emitted as 4 characters, leftovers stay buffered),
  * `SetPrivateKey`, `SupportDoc`, `IdCertHeader`, `Sign` from the key
    module (big integers are `Nat`; the private scalar material that none
    of the modeled operations reads is omitted from the key variants),
  * `identityCertificate` (the compact-token serializer),
  * the SQLite session backing (`Close`, `NewSession`, `HasSession`),
    with the sessions table as a list of rows and the database clock as an
    explicit `now` parameter in epoch seconds.

External effects are explicit parameters: wall-clock time is an `Int` in
nanoseconds since the Unix epoch (`time.Now()` in Go; the two adjacent
`time.Now()` calls of `identityCertificate` are modeled by the same
instant), SHA-256 and the randomized signing primitive are opaque
functions `List Nat → List Nat` (fixing them models fixed randomness),
and the `Close` results of database handles are passed in as arguments.
A nil Go pointer or nil interface value is `Option.none`; a Go runtime
fault (nil-pointer dereference, unreachable type-switch default) is the
`Outcome.panics` result, distinct from an ordinary returned `error`.
-/

namespace Persona

/-- Result of a Go operation: a normal value, a returned `error`, or a
runtime fault (panic), which Go does not deliver as an `error` value. -/
inductive Outcome (α : Type) where
  | ok (a : α)
  | fails (e : String)
  | panics
deriving DecidableEq

/-- Go `error` values are modeled by their message strings. -/
abbrev GoError := String

/-! ## Base64url encoding (encoding/base64, URLEncoding)

The Go code drives one streaming encoder over the whole output buffer.
The encoder emits 4 characters for every complete 3-byte group and keeps
the 1–2 leftover bytes buffered; padding would only be produced by
`Close`, which `identityCertificate` defers until after the output string
has already been captured, so it never reaches the returned token. -/

/-- The 64-character base64url alphabet used by `base64.URLEncoding`. -/
def b64UrlAlphabet : List Char :=
  ['A', 'B', 'C', 'D', 'E', 'F', 'G', 'H', 'I', 'J', 'K', 'L', 'M',
   'N', 'O', 'P', 'Q', 'R', 'S', 'T', 'U', 'V', 'W', 'X', 'Y', 'Z',
   'a', 'b', 'c', 'd', 'e', 'f', 'g', 'h', 'i', 'j', 'k', 'l', 'm',
   'n', 'o', 'p', 'q', 'r', 's', 't', 'u', 'v', 'w', 'x', 'y', 'z',
   '0', '1', '2', '3', '4', '5', '6', '7', '8', '9', '-', '_']

/-- Character for a 6-bit value. -/
def b64Char (n : Nat) : Char := b64UrlAlphabet.getD n '?'

/-- 6-bit value of an alphabet character (64 when not in the alphabet). -/
def b64Value (c : Char) : Nat := b64UrlAlphabet.indexOf c

/-- Encode one 3-byte group as 4 characters. -/
def encodeGroup (a b c : Nat) : List Char :=
  [b64Char (a / 4), b64Char (a % 4 * 16 + b / 16),
   b64Char (b % 16 * 4 + c / 64), b64Char (c % 64)]

/-- Encode complete 3-byte groups; a trailing partial group is ignored
(the streaming encoder keeps it buffered instead). -/
def b64EncodeGroups : List Nat → List Char
  | a :: b :: c :: rest => encodeGroup a b c ++ b64EncodeGroups rest
  | _ => []

/-- Decode one 4-character group to 3 bytes. -/
def decodeGroup (w x y z : Nat) : List Nat :=
  [w * 4 + x / 16, x % 16 * 16 + y / 4, y % 4 * 64 + z]

/-- Decode complete 4-character base64url groups (all segments produced by
the streaming encoder have length divisible by 4). -/
def b64Decode : List Char → List Nat
  | w :: x :: y :: z :: rest =>
      decodeGroup (b64Value w) (b64Value x) (b64Value y) (b64Value z) ++ b64Decode rest
  | _ => []

/-- Largest multiple of 3 not exceeding `n`: the number of input bytes a
streaming base64 encoder has flushed after seeing `n` bytes. -/
def alignedLen (n : Nat) : Nat := n / 3 * 3

/-- State of the streaming base64 encoder: the 0–2 buffered bytes. -/
structure B64Encoder where
  buf : List Nat
deriving DecidableEq

/-- One `Write` to the streaming encoder: all complete 3-byte groups of
buffered-plus-new bytes are encoded and emitted, the remainder stays
buffered. Output-equivalent to `encoding/base64.Encoder.Write`. -/
def B64Encoder.write (e : B64Encoder) (bs : List Nat) : B64Encoder × List Char :=
  let all := e.buf ++ bs
  (⟨all.drop (alignedLen all.length)⟩, b64EncodeGroups (all.take (alignedLen all.length)))

/-- Split a character list on `'.'` (used to state the three-segment
property of issued tokens). -/
def splitOnDot : List Char → List (List Char)
  | [] => [[]]
  | c :: rest =>
      if c = '.' then [] :: splitOnDot rest
      else
        match splitOnDot rest with
        | seg :: segs => (c :: seg) :: segs
        | [] => [[c]]

/-- UTF-8 bytes of a string; faithful for the ASCII strings this core
produces (codepoints are used directly). -/
def strBytes (s : String) : List Nat := s.data.map Char.toNat

/-! ## Key module (private_key.go) -/

/-- `math/big.Int.BitLen`: length of the absolute value in bits, 0 for 0. -/
def bitLen (n : Nat) : Nat :=
  if n = 0 then 0 else bitLen (n / 2) + 1
decreasing_by exact Nat.div_lt_self (Nat.pos_of_ne_zero (by assumption)) (by omega)

/-- Minimum supported DSA key size (`MinKeySizeDSA`). -/
def MinKeySizeDSA : Nat := 2048

/-- Minimum supported RSA key size (`MinKeySizeRSA`). -/
def MinKeySizeRSA : Nat := 2048

/-- Error messages of the key module (formatted as the source formats
them, with the concrete sizes of the standard failing inputs). -/
def errPrivateKeyUndefined : GoError := "private key is undefined."

/-- `errUnsupportedEllipticCurve`. -/
def errUnsupportedEllipticCurve : GoError := "unsupported elliptic curve."

/-- `errUnsupportedPrivateKeyType`. -/
def errUnsupportedPrivateKeyType : GoError := "unsupported private key type."

/-- `errPrivateKeyTooSmall` (the format string; the Go code interpolates
the offending bit length into it). -/
def errPrivateKeyTooSmall : GoError :=
  "private key is %d bits, should be at least %d bits."

/-- The elliptic curves Go's `crypto/elliptic` package offers; `other`
stands for any curve outside the supported four. -/
inductive EllCurve where
  | p224
  | p256
  | p384
  | p521
  | other
deriving DecidableEq

/-- `SupportedEllipticCurves`: curve-to-label map; `none` models a map
miss (`supported == false`). -/
def SupportedEllipticCurves : EllCurve → Option String
  | .p224 => some "P-224"
  | .p256 => some "P-256"
  | .p384 => some "P-384"
  | .p521 => some "P-521"
  | .other => none

/-- `PrivateKeyTypeToAlgorithm` (a Go map; a missing key yields `""`). -/
def PrivateKeyTypeToAlgorithm (s : String) : String :=
  if s = "DSA" then "DS"
  else if s = "ECDSA" then "EC"
  else if s = "RSA" then "RS"
  else ""

/-- The dynamic value stored in the `interface{}` key field. Public-key
parameters are kept as `Nat`; private scalars are omitted because none of
the modeled operations reads them. `unsupported` covers every other
dynamic type (including a nil interface), i.e. the type-switch default. -/
inductive GoKeyValue where
  | dsa (p q g y : Nat)
  | ecdsa (curve : EllCurve) (x y : Nat)
  | rsa (n e : Nat)
  | unsupported
deriving DecidableEq

/-- The cached public-key descriptor (`supportDoc` field). The source
renders the big integers as hex (`%02x`, DSA) or decimal strings; the
numbers themselves are kept here since that rendering is injective and no
claim inspects the string form. -/
inductive SupportDocPub where
  | dsa (algorithm : String) (g p q y : Nat)
  | ecdsa (algorithm curve : String) (x y : Nat)
  | rsa (algorithm : String) (n e : Nat)
deriving DecidableEq

/-- The `PrivateKey` struct. `key = none` models a nil interface stored in
the `key` field (never produced by `SetPrivateKey`, but the methods test
for it, so the model keeps the field optional). -/
structure PrivateKey where
  key : Option GoKeyValue
  supportDoc : Option SupportDocPub
deriving DecidableEq

/-- `SetPrivateKey` acting on the package-level `privateKey` pointer
(`none` = nil). Returns the new value of the global and the returned
`error`; the global is only assigned on success, exactly as in the
source, where `privateKey = privKey` is the last statement before
`return nil`. -/
def SetPrivateKey (st : Option PrivateKey) (key : GoKeyValue) :
    Option PrivateKey × Option GoError :=
  match key with
  | .dsa p q g y =>
      -- NOTE: the source tests k.PublicKey.Q.BitLen(), the subgroup
      -- order, not the modulus P.
      if bitLen q < MinKeySizeDSA then (st, some errPrivateKeyTooSmall)
      else
        (some ⟨some key, some (.dsa (PrivateKeyTypeToAlgorithm "DSA") g p q y)⟩, none)
  | .ecdsa curve x y =>
      match SupportedEllipticCurves curve with
      | none => (st, some errUnsupportedEllipticCurve)
      | some lbl =>
          (some ⟨some key, some (.ecdsa (PrivateKeyTypeToAlgorithm "ECDSA") lbl x y)⟩, none)
  | .rsa n e =>
      if bitLen n < MinKeySizeRSA then (st, some errPrivateKeyTooSmall)
      else
        -- k.Precompute() only fills CRT caches; no observable state here.
        (some ⟨some key, some (.rsa (PrivateKeyTypeToAlgorithm "RSA") n e)⟩, none)
  | .unsupported => (st, some errUnsupportedPrivateKeyType)

/-- `(*PrivateKey).SupportDoc` called through the package-level pointer.
On a nil receiver the body's `pk.key` dereference faults (`panics`). -/
def SupportDoc (pk : Option PrivateKey) : Outcome (Option SupportDocPub) :=
  match pk with
  | none => .panics
  | some p =>
      match p.key with
      | none => .fails errPrivateKeyUndefined
      | some _ => .ok p.supportDoc

/-- The identity-certificate header struct (`{Alg string}`). -/
structure IdentityCertificateHeader where
  Alg : String
deriving DecidableEq

/-- `(*PrivateKey).IdCertHeader` called through the package-level pointer.
Nil receiver: fault on `pk.key`. Unsupported stored key: the type-switch
default panics (`errUnsupportedPrivateKeyType`). -/
def IdCertHeader (pk : Option PrivateKey) : Outcome IdentityCertificateHeader :=
  match pk with
  | none => .panics
  | some p =>
      match p.key with
      | none => .fails errPrivateKeyUndefined
      | some (.dsa _ q _ _) =>
          .ok ⟨PrivateKeyTypeToAlgorithm "DSA" ++ Nat.repr (bitLen q / 8)⟩
      | some (.ecdsa _ x _) =>
          .ok ⟨PrivateKeyTypeToAlgorithm "ECDSA" ++ Nat.repr (bitLen x)⟩
      | some (.rsa n _) =>
          .ok ⟨PrivateKeyTypeToAlgorithm "RSA" ++ Nat.repr (bitLen n / 8)⟩
      | some .unsupported => .panics

/-- `(*PrivateKey).Sign` called through the package-level pointer. The
algorithm-specific randomized signing procedure (DSA/ECDSA `(r,s)`
concatenation, RSA PKCS#1 v1.5) is the opaque `sign` parameter; fixing it
fixes the randomness. Underlying signing success is assumed (no claim
concerns the `SigningFailed` path). Nil receiver: fault on `pk.key`;
unsupported stored key: the type-switch default panics. -/
def Sign (pk : Option PrivateKey) (sign : List Nat → List Nat) (data : List Nat) :
    Outcome (List Nat) :=
  match pk with
  | none => .panics
  | some p =>
      match p.key with
      | none => .fails errPrivateKeyUndefined
      | some (.dsa _ _ _ _) => .ok (sign data)
      | some (.ecdsa _ _ _) => .ok (sign data)
      | some (.rsa _ _) => .ok (sign data)
      | some .unsupported => .panics

/-! ## Certificate issuer (identity_certificate.go) -/

/-- `SessionMaxDuration` (session.go): "the maximum duration, in seconds,
that a session can be valid for". -/
def SessionMaxDuration : Int := 86400

/-- `idCertExpMaxDuration = SessionMaxDuration`: per its comment "the max
duration, in seconds, for all issued ID certificates". -/
def idCertExpMaxDuration : Int := SessionMaxDuration

/-- `idCertIatFuzzDuration = -10`: per its comment "the time, in seconds,
to fuzz the issued-at time". -/
def idCertIatFuzzDuration : Int := -10

/-- `int64(time.Millisecond)`: the number of nanoseconds in a
millisecond, 10^6 — the factor the source multiplies Unix seconds by. -/
def int64TimeMillisecond : Int := 1000000

/-- `time.Now().Add(d).Unix()` with `now` in nanoseconds since the epoch:
Go's `Add` takes a `time.Duration`, which counts NANOseconds, so the
untyped constants above are added as nanoseconds; `Unix()` floors to
seconds. -/
def timeNowAddUnix (now d : Int) : Int := Int.fdiv (now + d) 1000000000

/-- `RequestGenerateCertificate` (persona.go). The `public-key` map is an
association list; Go renders map keys sorted, so the list is taken in the
order Go would emit. -/
structure RequestGenerateCertificate where
  Email : String
  PublicKey : List (String × String)
  Duration : Int
deriving DecidableEq

/-- `IdentityCertificate` claims struct (field order as declared, which is
the order `encoding/json` emits). The `principal` element is inlined as
its single `email` field. -/
structure IdentityCertificate where
  Iat : Int
  Exp : Int
  Iss : String
  PublicKey : List (String × String)
  PrincipalEmail : String
deriving DecidableEq

/-- The duration clamp of `identityCertificate`:
`if req.Duration > idCertExpMaxDuration { req.Duration = idCertExpMaxDuration }`. -/
def clampDuration (req : RequestGenerateCertificate) : RequestGenerateCertificate :=
  if req.Duration > idCertExpMaxDuration then
    { req with Duration := idCertExpMaxDuration }
  else req

/-- The `IdentityCertificate` struct literal of `identityCertificate`:
`Iat: time.Now().Add(idCertIatFuzzDuration).Unix() * int64(time.Millisecond)`
(and likewise `Exp` with `idCertExpMaxDuration`). -/
def buildIdCert (now : Int) (req : RequestGenerateCertificate) : IdentityCertificate :=
  { Iat := timeNowAddUnix now idCertIatFuzzDuration * int64TimeMillisecond
    Exp := timeNowAddUnix now idCertExpMaxDuration * int64TimeMillisecond
    Iss := "timewasted.me"
    PublicKey := req.PublicKey
    PrincipalEmail := req.Email }

/-- JSON encoding of the header as written by `json.Encoder.Encode`
(compact object plus a trailing newline). Faithful for `Alg` strings
needing no JSON escaping, which is all the source ever produces. -/
def goJsonHeader (alg : String) : List Nat :=
  strBytes ("\x7b\"alg\":\"" ++ alg ++ "\"\x7d\n")

/-- Render an association list as the members of a JSON object
(`"k":"v"` pairs, comma separated), escaping-free inputs assumed. -/
def jsonStringPairs : List (String × String) → String
  | [] => ""
  | [(k, v)] => "\"" ++ k ++ "\":\"" ++ v ++ "\""
  | (k, v) :: rest => "\"" ++ k ++ "\":\"" ++ v ++ "\"" ++ "," ++ jsonStringPairs rest

/-- JSON encoding of the claims as written by `json.Encoder.Encode`: the
`iat`/`exp` int64s carry the `,string` tag and are emitted as quoted
decimal, fields in declaration order, plus a trailing newline. Faithful
for escaping-free strings and a non-nil public-key map. -/
def goJsonCert (c : IdentityCertificate) : List Nat :=
  strBytes ("\x7b\"iat\":\"" ++ toString c.Iat ++ "\",\"exp\":\"" ++ toString c.Exp ++
    "\",\"iss\":\"" ++ c.Iss ++ "\",\"public-key\":\x7b" ++ jsonStringPairs c.PublicKey ++
    "\x7d,\"principal\":\x7b\"email\":\"" ++ c.PrincipalEmail ++ "\"\x7d\x7d\n")

/-- The serialization pipeline of `identityCertificate` after the header
has been obtained, over the header bytes `H` and claims bytes `C`:
one streaming base64 encoder spans all three payloads while the two `.`
separators are written directly to the underlying buffer; the signature
is produced over the SHA-256 digest of the output captured so far; the
encoder's final flush (`defer b64Encoder.Close()`) runs only after
`output.String()` has been captured, so buffered trailing bytes are
dropped from the returned token. -/
def certFromHeaderAndClaims (pk : Option PrivateKey) (sha256 sign : List Nat → List Nat)
    (H C : List Nat) : Outcome (List Char) :=
  let w1 := B64Encoder.write ⟨[]⟩ H
  let out1 := w1.2 ++ ['.']
  let w2 := w1.1.write C
  let out2 := out1 ++ w2.2
  match Sign pk sign (sha256 (out2.map Char.toNat)) with
  | .panics => .panics
  | .fails e => .fails e
  | .ok sig => .ok (out2 ++ ['.'] ++ (w2.1.write sig).2)

/-- `identityCertificate`: asks the package key for the header, clamps the
requested duration, builds the claims from the clock, and serializes.
(The buffer-write length checks of the source can never fail in the
model and are omitted; `jsonEncoder.Encode` is infallible on these
structs.) -/
def identityCertificate (pk : Option PrivateKey) (sha256 sign : List Nat → List Nat)
    (now : Int) (req : RequestGenerateCertificate) : Outcome (List Char) :=
  match IdCertHeader pk with
  | .panics => .panics
  | .fails e => .fails e
  | .ok idCertHeader =>
      certFromHeaderAndClaims pk sha256 sign (goJsonHeader idCertHeader.Alg)
        (goJsonCert (buildIdCert now (clampDuration req)))

/-- First segment of the emitted token: the flush of the streaming
encoder after the header bytes (the aligned prefix of `H`). -/
def seg1 (H : List Nat) : List Char :=
  b64EncodeGroups (H.take (alignedLen H.length))

/-- Second segment: the flush after the claims bytes — the groups of
`H ++ C` completed since the header flush (so the 1–2 leftover header
bytes spill into this segment). -/
def seg2 (H C : List Nat) : List Char :=
  b64EncodeGroups (((H ++ C).take (alignedLen (H ++ C).length)).drop (alignedLen H.length))

/-- The signature bytes: the opaque signing primitive over the hash of
the token prefix captured so far (first two segments and the dot,
exactly as transmitted). -/
def sigOf (sha256 sign : List Nat → List Nat) (H C : List Nat) : List Nat :=
  sign (sha256 ((seg1 H ++ ['.'] ++ seg2 H C).map Char.toNat))

/-- Third segment: the flush after the signature bytes; the trailing
partial group stays in the encoder buffer and never reaches the token. -/
def seg3 (H C S : List Nat) : List Char :=
  b64EncodeGroups (((H ++ C ++ S).take (alignedLen (H ++ C ++ S).length)).drop
    (alignedLen (H ++ C).length))

/-! ## SQLite session backing (session_sqlite.go) -/

/-- `errSessionBackingNotOpened`. -/
def errSessionBackingNotOpened : GoError := "session backing has not been opened."

/-- The error `database/sql` returns when `Stmt.Exec` is given a number of
bind arguments different from the statement's placeholder count. -/
def errExpectedArgs : GoError := "sql: expected 4 arguments, got 2"

/-- One row of the `sessions` table. `createdAt` is epoch seconds
(`strftime('%s', created_at)` in the liveness query). -/
structure SessionRow where
  id : Nat
  email : String
  emailCanonical : String
  duration : Int
  createdAt : Int
deriving DecidableEq

/-- `SQLiteBacking`: `db = none` models a nil `*sql.DB`; an open handle
carries the table contents. The two booleans model whether the prepared
statements are non-nil. -/
structure SQLiteBacking where
  db : Option (List SessionRow)
  newSessionStmt : Bool
  hasSessionStmt : Bool
deriving DecidableEq

/-- Number of `?` placeholders in `newSessionQuery`:
`(?, ?, min(?, ?))` has four. -/
def newSessionQueryNumInput : Nat := 4

/-- `SQLiteBacking.Close`. The `Close()` result of each underlying handle
is an explicit argument. Each non-nil handle is closed (overwriting
`err`) and set to nil. -/
def SQLiteBacking.Close (b : SQLiteBacking)
    (dbCloseErr newStmtCloseErr hasStmtCloseErr : Option GoError) :
    SQLiteBacking × Option GoError :=
  let err : Option GoError := none
  let (b, err) :=
    if b.db.isSome then ({ b with db := none }, dbCloseErr) else (b, err)
  let (b, err) :=
    if b.newSessionStmt then ({ b with newSessionStmt := false }, newStmtCloseErr)
    else (b, err)
  let (b, err) :=
    if b.hasSessionStmt then ({ b with hasSessionStmt := false }, hasStmtCloseErr)
    else (b, err)
  (b, err)

/-- `SQLiteBacking.NewSession(email, id)`. After the open check and lazy
prepare, the source calls `newSessionStmt.Exec(email, id)`: two bind
arguments for the four placeholders of `newSessionQuery`, which
`database/sql` rejects up front (it compares `len(args)` with the
driver's `NumInput` before executing), so the INSERT never runs. -/
def SQLiteBacking.NewSession (b : SQLiteBacking) (email id : String) :
    SQLiteBacking × Option GoError :=
  match b.db with
  | none => (b, some errSessionBackingNotOpened)
  | some _ =>
      let b := { b with newSessionStmt := true }
      if [email, id].length = newSessionQueryNumInput then
        (b, none)  -- would execute the INSERT; unreachable since 2 ≠ 4
      else (b, some errExpectedArgs)

/-- The WHERE clause of `hasSessionQuery` for one row:
`email_canonical = ?` and
`datetime(strftime('%s', created_at) + duration, 'unixepoch') > datetime('now')`,
i.e. the row is live iff `createdAt + duration > now` on the database
clock. -/
def sessionLive (now : Int) (email : String) (r : SessionRow) : Bool :=
  r.emailCanonical == email && decide (r.createdAt + r.duration > now)

/-- `SQLiteBacking.HasSession`. `QueryRow(...).Scan` yields the first
matching row or `sql.ErrNoRows`; the source maps a found row to
`(true, nil)` and `ErrNoRows` to `(false, nil)`. On an open handle the
model has no other failure source, mirroring that storage errors are
passed through and nothing else is turned into an error. -/
def SQLiteBacking.HasSession (b : SQLiteBacking) (now : Int) (email : String) :
    SQLiteBacking × Bool × Option GoError :=
  match b.db with
  | none => (b, false, some errSessionBackingNotOpened)
  | some rows =>
      let b := { b with hasSessionStmt := true }
      match rows.find? (sessionLive now email) with
      | some _ => (b, true, none)
      | none => (b, false, none)

/-! ## Concrete inputs used by witnesses and counterexamples -/

/-- A stored RSA key with a 16-bit modulus (2^15). `identityCertificate`
performs no size check, so issuance succeeds with header `RS2`; the small
modulus keeps kernel evaluation cheap. -/
def pkC : Option PrivateKey :=
  some ⟨some (GoKeyValue.rsa 32768 65537), some (SupportDocPub.rsa "RS" 32768 65537)⟩

/-- A fixed stand-in for SHA-256 (the hash value itself is irrelevant to
the serialization claims). -/
def shaC : List Nat → List Nat := fun _ => [1, 2, 3]

/-- A fixed stand-in for the randomized signing primitive. -/
def signC : List Nat → List Nat := fun _ => [7, 8, 9]

/-- A concrete issuance request. -/
def reqC : RequestGenerateCertificate := ⟨"a@b", [], 0⟩

/-- A previously assigned key, used to observe that failed re-assignment
leaves the singleton untouched. -/
def prevC : Option PrivateKey :=
  some ⟨some (GoKeyValue.rsa 5 3), some (SupportDocPub.rsa "RS" 5 3)⟩

/-! ## Helper lemmas -/

theorem bitLen_zero : bitLen 0 = 0 := by
  unfold bitLen
  simp

theorem bitLen_succ (n : Nat) (h : n ≠ 0) : bitLen n = bitLen (n / 2) + 1 := by
  conv_lhs => rw [bitLen]
  simp [h]

theorem bitLen_two_pow (k : Nat) : bitLen (2 ^ k) = k + 1 := by
  induction k with
  | zero =>
      rw [pow_zero, bitLen_succ 1 one_ne_zero]
      norm_num [bitLen_zero]
  | succ k ih =>
      rw [bitLen_succ (2 ^ (k + 1)) (by positivity), pow_succ,
        Nat.mul_div_cancel _ (by norm_num), ih]

theorem bitLen_three_lt : bitLen 3 < MinKeySizeDSA := by
  rw [bitLen_succ 3 (by norm_num)]
  norm_num
  rw [bitLen_succ 1 one_ne_zero]
  norm_num [bitLen_zero, MinKeySizeDSA]

theorem b64Value_b64Char : ∀ n, n < 64 → b64Value (b64Char n) = n := by decide

theorem b64Char_mem_alphabet : ∀ n, n < 64 → b64Char n ∈ b64UrlAlphabet := by decide

theorem b64Char_ne_dot_lt : ∀ n, n < 64 → b64Char n ≠ '.' := by decide

theorem b64Char_ne_dot (n : Nat) : b64Char n ≠ '.' := by
  by_cases h : n < 64
  · exact b64Char_ne_dot_lt n h
  · have hlen : b64UrlAlphabet.length = 64 := by decide
    unfold b64Char
    rw [List.getD_eq_default _ _ (by omega)]
    decide

theorem b64EncodeGroups_no_dot : ∀ xs : List Nat, '.' ∉ b64EncodeGroups xs
  | [] => by simp [b64EncodeGroups]
  | [a] => by simp [b64EncodeGroups]
  | [a, b] => by simp [b64EncodeGroups]
  | a :: b :: c :: rest => by
      simp only [b64EncodeGroups, encodeGroup, List.mem_append, List.mem_cons,
        List.not_mem_nil, or_false, not_or]
      refine ⟨⟨?_, ?_, ?_, ?_⟩, ?_⟩ <;>
        first
          | exact fun h => b64Char_ne_dot _ h.symm
          | exact fun h => b64EncodeGroups_no_dot rest h

theorem b64EncodeGroups_alphabet : ∀ xs : List Nat, (∀ b ∈ xs, b < 256) →
    ∀ ch ∈ b64EncodeGroups xs, ch ∈ b64UrlAlphabet
  | [], _ => by simp [b64EncodeGroups]
  | [a], _ => by simp [b64EncodeGroups]
  | [a, b], _ => by simp [b64EncodeGroups]
  | a :: b :: c :: rest, h => by
      have ha : a < 256 := h a (by simp)
      have hb : b < 256 := h b (by simp)
      have hc : c < 256 := h c (by simp)
      intro ch hch
      simp only [b64EncodeGroups, encodeGroup, List.mem_append, List.mem_cons,
        List.not_mem_nil, or_false] at hch
      rcases hch with (h1 | h1 | h1 | h1) | h1
      · exact h1 ▸ b64Char_mem_alphabet _ (by omega)
      · exact h1 ▸ b64Char_mem_alphabet _ (by omega)
      · exact h1 ▸ b64Char_mem_alphabet _ (by omega)
      · exact h1 ▸ b64Char_mem_alphabet _ (by omega)
      · exact b64EncodeGroups_alphabet rest (fun x hx => h x (by simp [hx])) ch h1

theorem b64EncodeGroups_len_mod4 : ∀ xs : List Nat, (b64EncodeGroups xs).length % 4 = 0
  | [] => by simp [b64EncodeGroups]
  | [a] => by simp [b64EncodeGroups]
  | [a, b] => by simp [b64EncodeGroups]
  | a :: b :: c :: rest => by
      have := b64EncodeGroups_len_mod4 rest
      simp only [b64EncodeGroups, encodeGroup, List.length_append, List.length_cons,
        List.length_nil]
      omega

theorem b64Decode_append : ∀ xs ys : List Char, xs.length % 4 = 0 →
    b64Decode (xs ++ ys) = b64Decode xs ++ b64Decode ys
  | [], ys, _ => by simp [b64Decode]
  | [a], ys, h => by simp at h
  | [a, b], ys, h => by simp at h
  | [a, b, c], ys, h => by simp at h
  | a :: b :: c :: d :: rest, ys, h => by
      have h' : rest.length % 4 = 0 := by
        simp only [List.length_cons] at h
        omega
      simp only [List.cons_append, b64Decode, List.append_eq,
        b64Decode_append rest ys h', List.append_assoc]

theorem b64Decode_encodeGroup (a b c : Nat) (ha : a < 256) (hb : b < 256)
    (hc : c < 256) : b64Decode (encodeGroup a b c) = [a, b, c] := by
  simp only [encodeGroup, b64Decode, decodeGroup, List.append_nil]
  rw [b64Value_b64Char _ (by omega), b64Value_b64Char _ (by omega),
    b64Value_b64Char _ (by omega), b64Value_b64Char _ (by omega)]
  simp only [List.cons.injEq, and_true]
  omega

theorem b64Decode_b64EncodeGroups : ∀ xs : List Nat, xs.length % 3 = 0 →
    (∀ b ∈ xs, b < 256) → b64Decode (b64EncodeGroups xs) = xs
  | [], _, _ => by simp [b64EncodeGroups, b64Decode]
  | [a], h, _ => by simp at h
  | [a, b], h, _ => by simp at h
  | a :: b :: c :: rest, h, hlt => by
      have h' : rest.length % 3 = 0 := by
        simp only [List.length_cons] at h
        omega
      have ha : a < 256 := hlt a (by simp)
      have hb : b < 256 := hlt b (by simp)
      have hc : c < 256 := hlt c (by simp)
      have hlen : (encodeGroup a b c).length % 4 = 0 := by simp [encodeGroup]
      simp only [b64EncodeGroups]
      rw [b64Decode_append _ _ hlen, b64Decode_encodeGroup a b c ha hb hc,
        b64Decode_b64EncodeGroups rest h' (fun x hx => hlt x (by simp [hx]))]
      simp

theorem alignedLen_le (n : Nat) : alignedLen n ≤ n := Nat.div_mul_le_self n 3

theorem alignedLen_mod (n : Nat) : alignedLen n % 3 = 0 := Nat.mul_mod_left (n / 3) 3

theorem alignedLen_mono {m n : Nat} (h : m ≤ n) : alignedLen m ≤ alignedLen n := by
  unfold alignedLen
  omega

theorem drop_append_len {α : Type} (l₁ l₂ : List α) (n k : Nat)
    (h : l₁.length = k) : (l₁ ++ l₂).drop (k + n) = l₂.drop n := by
  subst h
  exact List.drop_append n

theorem take_append_len {α : Type} (l₁ l₂ : List α) (n k : Nat)
    (h : l₁.length = k) : (l₁ ++ l₂).take (k + n) = l₁ ++ l₂.take n := by
  subst h
  exact List.take_append n

theorem take_glue {α : Type} (l : List α) (a b : Nat) (h : a ≤ b) :
    l.take a ++ (l.take b).drop a = l.take b := by
  conv_rhs => rw [← List.take_append_drop a (l.take b)]
  rw [List.take_take a b l, Nat.min_eq_left h]

/-- The streaming invariant of the base64 encoder: writing `bs` to an
encoder whose buffer holds the unflushed tail of an already-consumed
stream `acc` flushes exactly the further complete 3-byte groups of
`acc ++ bs` and buffers the new tail. -/
theorem write_from (acc bs : List Nat) :
    B64Encoder.write ⟨acc.drop (alignedLen acc.length)⟩ bs =
      (⟨(acc ++ bs).drop (alignedLen (acc ++ bs).length)⟩,
       b64EncodeGroups (((acc ++ bs).take (alignedLen (acc ++ bs).length)).drop
         (alignedLen acc.length))) := by
  have ha : alignedLen acc.length ≤ acc.length := alignedLen_le _
  have hlen_take : (acc.take (alignedLen acc.length)).length = alignedLen acc.length := by
    rw [List.length_take]
    omega
  have hsplit : acc ++ bs = acc.take (alignedLen acc.length) ++
      (acc.drop (alignedLen acc.length) ++ bs) := by
    rw [← List.append_assoc, List.take_append_drop]
  have harith : alignedLen (acc ++ bs).length = alignedLen acc.length +
      alignedLen (acc.drop (alignedLen acc.length) ++ bs).length := by
    simp only [List.length_append, List.length_drop, alignedLen]
    omega
  have h1 : (acc ++ bs).drop (alignedLen (acc ++ bs).length) =
      (acc.drop (alignedLen acc.length) ++ bs).drop
        (alignedLen (acc.drop (alignedLen acc.length) ++ bs).length) := by
    rw [harith, hsplit]
    exact drop_append_len _ _ _ _ hlen_take
  have h2 : ((acc ++ bs).take (alignedLen (acc ++ bs).length)).drop
        (alignedLen acc.length) =
      (acc.drop (alignedLen acc.length) ++ bs).take
        (alignedLen (acc.drop (alignedLen acc.length) ++ bs).length) := by
    rw [harith, hsplit, take_append_len _ _ _ _ hlen_take]
    exact List.drop_left' hlen_take
  simp only [B64Encoder.write]
  rw [h1, h2]

/-- Bytes of a take-then-drop slice stay within the bound of the list. -/
theorem slice_lt (l : List Nat) (hl : ∀ b ∈ l, b < 256) (i j : Nat) :
    ∀ b ∈ (l.take i).drop j, b < 256 := fun b hb =>
  hl b ((List.take_sublist i l).subset ((List.drop_sublist j (l.take i)).subset hb))

/-- A header successfully obtained implies the stored key is a supported
variant, so `Sign` succeeds with the opaque signing function's output. -/
theorem sign_ok_of_header (pk : Option PrivateKey) (hdr : IdentityCertificateHeader)
    (hok : IdCertHeader pk = Outcome.ok hdr) :
    ∀ f d, Sign pk f d = Outcome.ok (f d) := by
  intro f d
  cases pk with
  | none => exact absurd hok (by simp [IdCertHeader])
  | some p =>
      rcases p with ⟨key, doc⟩
      cases key with
      | none => simp [IdCertHeader] at hok
      | some kv =>
          cases kv with
          | dsa p q g y => simp [Sign]
          | ecdsa c x y => simp [Sign]
          | rsa n e => simp [Sign]
          | unsupported => simp [IdCertHeader] at hok

theorem seg2_eq (H C : List Nat) :
    b64EncodeGroups (((H ++ C).take (alignedLen (H ++ C).length)).drop
      (alignedLen H.length)) = seg2 H C := rfl

theorem sigOf_eq (sha sgn : List Nat → List Nat) (H C : List Nat) :
    sgn (sha ((seg1 H ++ ['.'] ++ seg2 H C).map Char.toNat)) = sigOf sha sgn H C := rfl

theorem seg3_eq (H C S : List Nat) :
    b64EncodeGroups (((H ++ C ++ S).take (alignedLen (H ++ C ++ S).length)).drop
      (alignedLen (H ++ C).length)) = seg3 H C S := rfl

/-- Closed form of the serialization pipeline: the token is the three
segment flushes joined by the two raw dots. -/
theorem certFromHeaderAndClaims_eq (pk : Option PrivateKey)
    (sha sgn : List Nat → List Nat) (H C : List Nat)
    (hsign : ∀ d, Sign pk sgn d = Outcome.ok (sgn d)) :
    certFromHeaderAndClaims pk sha sgn H C =
      Outcome.ok (seg1 H ++ ['.'] ++ seg2 H C ++ ['.'] ++
        seg3 H C (sigOf sha sgn H C)) := by
  have w1 : B64Encoder.write ⟨[]⟩ H = (⟨H.drop (alignedLen H.length)⟩, seg1 H) := by
    simp [B64Encoder.write, seg1]
  have w2 := write_from H C
  have w3 := write_from (H ++ C) (sigOf sha sgn H C)
  simp only [certFromHeaderAndClaims]
  rw [w1]
  dsimp only
  rw [w2]
  dsimp only
  rw [seg2_eq, hsign]
  dsimp only
  rw [sigOf_eq sha sgn H C, w3]
  dsimp only
  rw [seg3_eq]

theorem seg1_decode (H : List Nat) (hH : ∀ b ∈ H, b < 256) :
    b64Decode (seg1 H) = H.take (alignedLen H.length) := by
  apply b64Decode_b64EncodeGroups
  · have h1 := alignedLen_le H.length
    have h2 := alignedLen_mod H.length
    rw [List.length_take]
    omega
  · intro b hb
    exact hH b ((List.take_sublist _ _).subset hb)

theorem seg2_decode (H C : List Nat) (h : ∀ b ∈ H ++ C, b < 256) :
    b64Decode (seg2 H C) =
      ((H ++ C).take (alignedLen (H ++ C).length)).drop (alignedLen H.length) := by
  apply b64Decode_b64EncodeGroups
  · have h1 := alignedLen_le (H ++ C).length
    have h2 := alignedLen_mod (H ++ C).length
    have h3 := alignedLen_mod H.length
    have h4 : alignedLen H.length ≤ alignedLen (H ++ C).length :=
      alignedLen_mono (by simp only [List.length_append]; omega)
    rw [List.length_drop, List.length_take]
    omega
  · exact slice_lt _ h _ _

theorem seg3_decode (H C S : List Nat) (h : ∀ b ∈ H ++ C ++ S, b < 256) :
    b64Decode (seg3 H C S) =
      ((H ++ C ++ S).take (alignedLen (H ++ C ++ S).length)).drop
        (alignedLen (H ++ C).length) := by
  apply b64Decode_b64EncodeGroups
  · have h1 := alignedLen_le (H ++ C ++ S).length
    have h2 := alignedLen_mod (H ++ C ++ S).length
    have h3 := alignedLen_mod (H ++ C).length
    have h4 : alignedLen (H ++ C).length ≤ alignedLen (H ++ C ++ S).length :=
      alignedLen_mono (by simp only [List.length_append]; omega)
    rw [List.length_drop, List.length_take]
    omega
  · exact slice_lt _ h _ _

theorem segs_decode_concat (sha sgn : List Nat → List Nat) (H C : List Nat)
    (hHC : ∀ b ∈ H ++ C, b < 256)
    (hT : ∀ b ∈ H ++ C ++ sigOf sha sgn H C, b < 256) :
    b64Decode (seg1 H ++ seg2 H C ++ seg3 H C (sigOf sha sgn H C)) =
      (H ++ C ++ sigOf sha sgn H C).take
        (alignedLen (H ++ C ++ sigOf sha sgn H C).length) := by
  have hH : ∀ b ∈ H, b < 256 := fun b hb => hHC b (List.mem_append.2 (Or.inl hb))
  have hlen1 : (seg1 H).length % 4 = 0 := b64EncodeGroups_len_mod4 _
  have hlen2 : (seg2 H C).length % 4 = 0 := b64EncodeGroups_len_mod4 _
  have hlen12 : (seg1 H ++ seg2 H C).length % 4 = 0 := by
    simp only [List.length_append]
    omega
  rw [b64Decode_append _ _ hlen12, b64Decode_append _ _ hlen1,
    seg1_decode H hH, seg2_decode H C hHC, seg3_decode H C _ hT]
  have e1 : (H ++ C ++ sigOf sha sgn H C).take (alignedLen H.length) =
      H.take (alignedLen H.length) := by
    rw [List.take_append_of_le_length
        (le_trans (alignedLen_le _) (by simp only [List.length_append]; omega)),
      List.take_append_of_le_length (alignedLen_le _)]
  have e2 : (H ++ C ++ sigOf sha sgn H C).take (alignedLen (H ++ C).length) =
      (H ++ C).take (alignedLen (H ++ C).length) :=
    List.take_append_of_le_length (alignedLen_le _)
  rw [← e1, ← e2]
  have h12 : alignedLen H.length ≤ alignedLen (H ++ C).length :=
    alignedLen_mono (by simp only [List.length_append]; omega)
  have h23 : alignedLen (H ++ C).length ≤
      alignedLen (H ++ C ++ sigOf sha sgn H C).length :=
    alignedLen_mono (by simp only [List.length_append]; omega)
  rw [take_glue _ _ _ h12, take_glue _ _ _ h23]

/-- The full structural description of a successfully serialized token,
over arbitrary header bytes `H` and claims bytes `C`. -/
theorem certParts_spec (pk : Option PrivateKey) (sha sgn : List Nat → List Nat)
    (H C : List Nat)
    (hsign : ∀ d, Sign pk sgn d = Outcome.ok (sgn d))
    (hH : ∀ b ∈ H, b < 256) (hC : ∀ b ∈ C, b < 256)
    (hS : ∀ d, ∀ b ∈ sgn d, b < 256) :
    ∃ s1 s2 s3 S,
      certFromHeaderAndClaims pk sha sgn H C =
        Outcome.ok (s1 ++ ['.'] ++ s2 ++ ['.'] ++ s3) ∧
      S = sgn (sha ((s1 ++ ['.'] ++ s2).map Char.toNat)) ∧
      ('.' ∉ s1 ∧ '.' ∉ s2 ∧ '.' ∉ s3) ∧
      (∀ ch ∈ s1 ++ s2 ++ s3, ch ∈ b64UrlAlphabet) ∧
      s1.length % 4 = 0 ∧ s2.length % 4 = 0 ∧ s3.length % 4 = 0 ∧
      b64Decode s1 = H.take (alignedLen H.length) ∧
      b64Decode (s1 ++ s2 ++ s3) =
        (H ++ C ++ S).take (alignedLen (H ++ C ++ S).length) := by
  have hHC : ∀ b ∈ H ++ C, b < 256 := by
    intro b hb
    rcases List.mem_append.1 hb with h | h
    · exact hH b h
    · exact hC b h
  have hT : ∀ b ∈ H ++ C ++ sigOf sha sgn H C, b < 256 := by
    intro b hb
    rcases List.mem_append.1 hb with h | h
    · exact hHC b h
    · exact hS _ b h
  refine ⟨seg1 H, seg2 H C, seg3 H C (sigOf sha sgn H C), sigOf sha sgn H C,
    certFromHeaderAndClaims_eq pk sha sgn H C hsign, rfl, ⟨?_, ?_, ?_⟩, ?_, ?_, ?_, ?_,
    ?_, ?_⟩
  · exact b64EncodeGroups_no_dot _
  · exact b64EncodeGroups_no_dot _
  · exact b64EncodeGroups_no_dot _
  · intro ch hch
    rcases List.mem_append.1 hch with h | h
    · rcases List.mem_append.1 h with h' | h'
      · exact b64EncodeGroups_alphabet _ (fun b hb => hH b ((List.take_sublist _ _).subset hb)) ch h'
      · exact b64EncodeGroups_alphabet _ (slice_lt _ hHC _ _) ch h'
    · exact b64EncodeGroups_alphabet _ (slice_lt _ hT _ _) ch h
  · exact b64EncodeGroups_len_mod4 _
  · exact b64EncodeGroups_len_mod4 _
  · exact b64EncodeGroups_len_mod4 _
  · exact seg1_decode H hH
  · exact segs_decode_concat sha sgn H C hHC hT

/-! ## Claim theorems -/

/-- C2 (code evaluation): at the wall-clock instant 500000000500000000 ns
(mid-second), the issued claims satisfy `Exp - Iat = 0` — not the fixed
maximum duration. The source adds `idCertExpMaxDuration = 86400` and
`idCertIatFuzzDuration = -10` to `time.Now()` as `time.Duration`s, i.e.
as nanoseconds, despite its own comments calling them seconds, so the
expiry exceeds the issue time only when the added 86.4 µs crosses a
second boundary. -/
theorem c2_code_eval :
    (buildIdCert 500000000500000000 reqC).Exp -
      (buildIdCert 500000000500000000 reqC).Iat = 0 ∧
    idCertExpMaxDuration = 86400 := by
  constructor
  · decide
  · rfl

/-- C7 (code evaluation): at the instant 10^18 ns (Unix second 10^9 - 1
after the fuzz), `Iat` is the Unix seconds multiplied by 10^6 — the
source multiplies by `int64(time.Millisecond)`, which is the nanoseconds
per millisecond, not by 1000 — so the fields are not millisecond epoch
timestamps. -/
theorem c7_code_eval :
    (buildIdCert 1000000000000000000 reqC).Iat = 999999999 * 1000000 ∧
    (buildIdCert 1000000000000000000 reqC).Exp = 1000000000 * 1000000 ∧
    999999999 * 1000000 ≠ 999999999 * 1000 := by
  refine ⟨by decide, by decide, by decide⟩

/-- C5 (code evaluation): before any key is assigned the package-level
`privateKey` pointer is nil, and every descriptor/signing operation
dereferences `pk.key` through it — a runtime panic, not the documented
`KeyNotSet` error return (the `pk.key == nil` guards sit behind the nil
receiver and are never reached). -/
theorem c5_code_eval :
    IdCertHeader none = Outcome.panics ∧
    SupportDoc none = Outcome.panics ∧
    (∀ f d, Sign none f d = Outcome.panics) ∧
    (∀ sha sgn now req, identityCertificate none sha sgn now req = Outcome.panics) :=
  ⟨rfl, rfl, fun _ _ => rfl, fun _ _ _ _ => rfl⟩

/-- C6: a rejected key (too small, unsupported curve, or unsupported
type) leaves the process-wide singleton exactly as it was, and a
successful assignment installs the completely built record — stored key
value plus cached descriptor — in a single replacement. -/
theorem c6_set_key (st : Option PrivateKey) (k : GoKeyValue) :
    ((SetPrivateKey st k).2.isSome → (SetPrivateKey st k).1 = st) ∧
    ((SetPrivateKey st k).2 = none →
      ∃ d, (SetPrivateKey st k).1 = some ⟨some k, some d⟩) := by
  cases k with
  | dsa p q g y =>
      by_cases h : bitLen q < MinKeySizeDSA <;> simp [SetPrivateKey, h]
  | ecdsa c x y =>
      cases c <;> simp [SetPrivateKey, SupportedEllipticCurves]
  | rsa n e =>
      by_cases h : bitLen n < MinKeySizeRSA <;> simp [SetPrivateKey, h]
  | unsupported => simp [SetPrivateKey]

/-- C6 witness: with a key already assigned, an unsupported re-assignment
errors and the singleton is unchanged. -/
theorem c6_witness :
    (SetPrivateKey prevC GoKeyValue.unsupported).2.isSome = true ∧
    (SetPrivateKey prevC GoKeyValue.unsupported).1 = prevC :=
  ⟨by decide, (c6_set_key prevC GoKeyValue.unsupported).1 (by decide)⟩

/-- C4 (counterexample): a DSA key whose public modulus P has only 1024
bits but whose subgroup order Q has 2048 bits is accepted by
`SetPrivateKey` — the claim says any DSA key with a sub-2048-bit public
modulus fails with `KeyTooWeak`. The source tests `Q.BitLen()`, not the
modulus `P.BitLen()`. -/
theorem c4_counterexample :
    bitLen (2 ^ 1023) < MinKeySizeDSA ∧
    (SetPrivateKey none (GoKeyValue.dsa (2 ^ 1023) (2 ^ 2047) 3 5)).2 = none := by
  have h1 : bitLen (2 ^ 1023) = 1024 := bitLen_two_pow 1023
  have h2 : bitLen (2 ^ 2047) = 2048 := bitLen_two_pow 2047
  refine ⟨by simp [h1, MinKeySizeDSA], ?_⟩
  simp [SetPrivateKey, h2, MinKeySizeDSA]

/-- C4 (amended): for every DSA key, assignment succeeds if and only if
the bit length of the subgroup-order parameter Q is at least 2048; any
DSA key with a shorter Q fails with the `KeyTooWeak` error and the
singleton unchanged. -/
theorem c4_amended (st : Option PrivateKey) (p q g y : Nat) :
    ((SetPrivateKey st (GoKeyValue.dsa p q g y)).2 = none ↔ MinKeySizeDSA ≤ bitLen q) ∧
    (bitLen q < MinKeySizeDSA →
      SetPrivateKey st (GoKeyValue.dsa p q g y) = (st, some errPrivateKeyTooSmall)) := by
  by_cases h : bitLen q < MinKeySizeDSA <;> simp [SetPrivateKey, h] <;> omega

/-- C4 amended witness: a 2-bit Q is rejected with the singleton left
unset. -/
theorem c4_amended_witness :
    bitLen 3 < MinKeySizeDSA ∧
    SetPrivateKey none (GoKeyValue.dsa 7 3 1 1) = (none, some errPrivateKeyTooSmall) :=
  ⟨bitLen_three_lt, (c4_amended none 7 3 1 1).2 bitLen_three_lt⟩

/-- C3 (code evaluation): on an opened backing, `NewSession` always
returns the `database/sql` argument-count error — the statement has four
placeholders and the code binds two values — and the table is unchanged,
so a subsequent `HasSession` for the canonicalized email still reports
no session. No case folding is performed anywhere in the store. -/
theorem c3_code_eval (s1 s2 : Bool) (email id : String) (now : Int) :
    SQLiteBacking.NewSession ⟨some [], s1, s2⟩ email id =
      (⟨some [], true, s2⟩, some errExpectedArgs) ∧
    (SQLiteBacking.HasSession ⟨some [], s1, s2⟩ now "user@example.com").2.1 = false := by
  constructor
  · simp [SQLiteBacking.NewSession, newSessionQueryNumInput]
  · simp [SQLiteBacking.HasSession]

/-- C8: on an opened store, `HasSession` never returns an error, and it
returns `true` exactly when some row matches the queried canonical email
and is still live (`createdAt + duration > now`); no matching row, or
only an expired matching row, yields `false` with no error. -/
theorem c8_has_session (rows : List SessionRow) (s1 s2 : Bool) (now : Int)
    (email : String) :
    (SQLiteBacking.HasSession ⟨some rows, s1, s2⟩ now email).2.2 = none ∧
    ((SQLiteBacking.HasSession ⟨some rows, s1, s2⟩ now email).2.1 = true ↔
      ∃ r ∈ rows, sessionLive now email r = true) := by
  have key : SQLiteBacking.HasSession ⟨some rows, s1, s2⟩ now email =
      (⟨some rows, s1, true⟩, (rows.find? (sessionLive now email)).isSome, none) := by
    simp only [SQLiteBacking.HasSession]
    cases h : rows.find? (sessionLive now email) <;> simp [h]
  rw [key]
  exact ⟨rfl, List.find?_isSome⟩

/-- C9: the issued token does not depend on the requested duration: with
the key, hash, signing randomness and clock fixed, two requests differing
only in `Duration` produce identical results — the clamped duration is
never used after the clamp. -/
theorem c9_duration_independent (pk : Option PrivateKey)
    (sha sgn : List Nat → List Nat) (now : Int) (email : String)
    (pubkey : List (String × String)) (d1 d2 : Int) :
    identityCertificate pk sha sgn now ⟨email, pubkey, d1⟩ =
      identityCertificate pk sha sgn now ⟨email, pubkey, d2⟩ := by
  have h : ∀ d : Int, buildIdCert now (clampDuration ⟨email, pubkey, d⟩) =
      buildIdCert now ⟨email, pubkey, 0⟩ := by
    intro d
    simp only [clampDuration]
    split <;> rfl
  simp only [identityCertificate, h]

theorem bitLen_32768 : bitLen 32768 = 16 := by
  have h : (32768 : Nat) = 2 ^ 15 := by norm_num
  rw [h, bitLen_two_pow]

theorem idCertHeader_pkC : IdCertHeader pkC = Outcome.ok ⟨"RS2"⟩ := by
  simp only [IdCertHeader, pkC, bitLen_32768]
  decide

/-- C1 (amended): for every issuance that succeeds (and whose header,
claims and signature bytes are in 0..255), the token has exactly three
`.`-delimited segments drawn from the unpadded base64url alphabet, each
of length divisible by 4, and the signature is over the SHA-256 digest of
the first two segments as transmitted; but the segments do not decode to
header, claims and signature individually: the first segment decodes to
only the longest 3-byte-aligned prefix of the header's JSON encoding, and
the three segments concatenated decode to the longest 3-byte-aligned
prefix of header ∥ claims ∥ signature, the trailing 1–2 bytes being
dropped from the token. -/
theorem c1_amended (pk : Option PrivateKey) (sha sgn : List Nat → List Nat)
    (now : Int) (req : RequestGenerateCertificate) (hdr : IdentityCertificateHeader)
    (hok : IdCertHeader pk = Outcome.ok hdr)
    (hH : ∀ b ∈ goJsonHeader hdr.Alg, b < 256)
    (hC : ∀ b ∈ goJsonCert (buildIdCert now (clampDuration req)), b < 256)
    (hS : ∀ d, ∀ b ∈ sgn d, b < 256) :
    ∃ s1 s2 s3 S,
      identityCertificate pk sha sgn now req =
        Outcome.ok (s1 ++ ['.'] ++ s2 ++ ['.'] ++ s3) ∧
      S = sgn (sha ((s1 ++ ['.'] ++ s2).map Char.toNat)) ∧
      ('.' ∉ s1 ∧ '.' ∉ s2 ∧ '.' ∉ s3) ∧
      (∀ ch ∈ s1 ++ s2 ++ s3, ch ∈ b64UrlAlphabet) ∧
      s1.length % 4 = 0 ∧ s2.length % 4 = 0 ∧ s3.length % 4 = 0 ∧
      b64Decode s1 =
        (goJsonHeader hdr.Alg).take (alignedLen (goJsonHeader hdr.Alg).length) ∧
      b64Decode (s1 ++ s2 ++ s3) =
        (goJsonHeader hdr.Alg ++ goJsonCert (buildIdCert now (clampDuration req)) ++
            S).take
          (alignedLen (goJsonHeader hdr.Alg ++
            goJsonCert (buildIdCert now (clampDuration req)) ++ S).length) := by
  have hid : identityCertificate pk sha sgn now req =
      certFromHeaderAndClaims pk sha sgn (goJsonHeader hdr.Alg)
        (goJsonCert (buildIdCert now (clampDuration req))) := by
    simp [identityCertificate, hok]
  rw [hid]
  exact certParts_spec pk sha sgn _ _ (sign_ok_of_header pk hdr hok sgn) hH hC hS

set_option maxRecDepth 100000 in
/-- C1 amended witness: a concrete issuance (16-bit RSA key, so header
`RS2`; clock at 10 ns; fixed hash/signing stand-ins) satisfying all
hypotheses and the conclusion. -/
theorem c1_amended_witness :
    IdCertHeader pkC = Outcome.ok ⟨"RS2"⟩ ∧
    (∀ b ∈ goJsonHeader "RS2", b < 256) ∧
    (∀ b ∈ goJsonCert (buildIdCert 10 (clampDuration reqC)), b < 256) ∧
    (∃ s1 s2 s3 S,
      identityCertificate pkC shaC signC 10 reqC =
        Outcome.ok (s1 ++ ['.'] ++ s2 ++ ['.'] ++ s3) ∧
      S = signC (shaC ((s1 ++ ['.'] ++ s2).map Char.toNat)) ∧
      ('.' ∉ s1 ∧ '.' ∉ s2 ∧ '.' ∉ s3) ∧
      (∀ ch ∈ s1 ++ s2 ++ s3, ch ∈ b64UrlAlphabet) ∧
      s1.length % 4 = 0 ∧ s2.length % 4 = 0 ∧ s3.length % 4 = 0 ∧
      b64Decode s1 =
        (goJsonHeader "RS2").take (alignedLen (goJsonHeader "RS2").length) ∧
      b64Decode (s1 ++ s2 ++ s3) =
        (goJsonHeader "RS2" ++ goJsonCert (buildIdCert 10 (clampDuration reqC)) ++
            S).take
          (alignedLen (goJsonHeader "RS2" ++
            goJsonCert (buildIdCert 10 (clampDuration reqC)) ++ S).length)) :=
  ⟨idCertHeader_pkC, by decide, by decide,
    c1_amended pkC shaC signC 10 reqC ⟨"RS2"⟩ idCertHeader_pkC (by decide) (by decide)
      (by intro d b hb; simp [signC] at hb; omega)⟩

set_option maxRecDepth 100000 in
/-- C1 (counterexample): on a concrete successful issuance the token does
split into three `.`-delimited segments, but the first segment does NOT
decode to the header's JSON encoding (the header is 14 bytes; the
streaming encoder had flushed only the aligned 12-byte prefix when the
raw `.` was written into the buffer). -/
theorem c1_counterexample :
    ∃ t, identityCertificate pkC shaC signC 10 reqC = Outcome.ok t ∧
      (splitOnDot t).length = 3 ∧
      b64Decode ((splitOnDot t).getD 0 []) ≠ goJsonHeader "RS2" := by
  have hid : identityCertificate pkC shaC signC 10 reqC =
      certFromHeaderAndClaims pkC shaC signC (goJsonHeader "RS2")
        (goJsonCert (buildIdCert 10 (clampDuration reqC))) := by
    simp [identityCertificate, idCertHeader_pkC]
  rw [hid]
  exact ⟨_, rfl, by decide, by decide⟩

/-- C10: `Close` always resets all three handles to nil, and the returned
error is exactly the close result of the last non-nil handle — a close
error from an earlier handle is overwritten and discarded. -/
theorem c10_close (db : Option (List SessionRow)) (s1 s2 : Bool)
    (e1 e2 e3 : Option GoError) :
    SQLiteBacking.Close ⟨db, s1, s2⟩ e1 e2 e3 =
      (⟨none, false, false⟩,
        if s2 then e3 else if s1 then e2 else if db.isSome then e1 else none) := by
  cases db <;> cases s1 <;> cases s2 <;> simp [SQLiteBacking.Close]

end Persona
